import Mathlib

/-!
Shallow embedding of `src/devel/libenkf/src/enkf_node.c`: the per-variable,
per-ensemble-member state node of the EnKF workflow.

Modelling conventions:
* a C function pointer of `struct enkf_node_struct` becomes a `Bool` flag in
  `Caps` recording whether it is non-NULL (bound);
* `node->data` (the pointer to the underlying domain object) becomes an
  `Option DomainObject`; inside the domain object we track only whether its
  internal data buffer is allocated, since no claim concerns payload values;
* every process abort becomes an explicit result constructor:
  `contractViolation` for a `FUNC_ASSERT` failure (diagnostic + abort),
  `fatal` for a `util_abort`/explicit `abort()` with diagnostic, and `ub`
  for invoking a NULL function pointer or handing NULL data to a low-level
  routine that dereferences it;
* each invocation of a low-level capability that touches memory or performs
  I/O is recorded as an element of an effect trace, so that "performs no
  I/O" and "allocates exactly once" are statements about the trace.
-/

/-- The `state_enum` tag of a stored snapshot. -/
inductive state_enum where
  | undefined
  | forecast
  | analyzed
deriving DecidableEq

/-- The implementation kinds dispatched over in `enkf_node_alloc_empty`. -/
inductive enkf_impl_type where
  | GEN_KW
  | MULTZ
  | RELPERM
  | MULTFLT
  | WELL
  | SUMMARY
  | HAVANA_FAULT
  | FIELD
  | EQUIL
  | STATIC
  | GEN_DATA
deriving DecidableEq

/-- The shared, immutable per-variable configuration (`enkf_config_node`):
key name, kind tag and the optional input/output file names consulted by
`enkf_node_ecl_load` / `enkf_node_ecl_write`. -/
structure enkf_config_node_type where
  key : String
  impl_type : enkf_impl_type
  infile : Option String
  outfile : Option String
deriving DecidableEq

/-- The underlying domain object (`node->data` points to it): we track only
whether its internal data buffer is currently allocated. -/
structure DomainObject where
  has_data : Bool
deriving DecidableEq

/-- One observable action of a low-level capability: payload memory traffic
or a dispatch into kind-specific code. -/
inductive Eff where
  | payloadAlloc
  | payloadDealloc
  | allocCall
  | freadCall
  | fwriteCall
  | eclLoadCall
  | eclWriteCall
  | initializeCall
  | serializeCall
  | deserializeCall
  | clearCall
  | scaleCall
  | sqrtCall
  | iaddCall
  | imulCall
  | iaddsqrCall
  | fprintfCall
  | freefCall
deriving DecidableEq

/-- Which function pointers of `struct enkf_node_struct` are non-NULL.
Field names follow the C struct (`initialize_f` stands for the C field
holding the initialization function pointer). -/
structure Caps where
  alloc : Bool
  ecl_write : Bool
  ecl_load : Bool
  fread_f : Bool
  fwrite_f : Bool
  realloc_data : Bool
  free_data : Bool
  serialize : Bool
  deserialize : Bool
  initialize_f : Bool
  freef : Bool
  clear : Bool
  copyc : Bool
  scale : Bool
  iadd : Bool
  imul : Bool
  isqrt : Bool
  iaddsqr : Bool
  fprintf_results : Bool
  iget : Bool
  get_index : Bool
deriving DecidableEq

/-- `enkf_node_alloc_empty` nulls out every function pointer of the struct
except the six arithmetic ones (`clear`, `scale`, `iadd`, `imul`, `isqrt`,
`iaddsqr`), which keep whatever bit pattern `util_malloc` returned; the
model therefore takes their boundness as an arbitrary input. -/
structure ArithCaps where
  clear : Bool
  scale : Bool
  iadd : Bool
  imul : Bool
  isqrt : Bool
  iaddsqr : Bool
deriving DecidableEq

/-- All pointers that `enkf_node_alloc_empty` explicitly sets to NULL, with
the six uninitialized arithmetic pointers taken from `g`. -/
def caps_base (g : ArithCaps) : Caps :=
  { alloc := false
  , ecl_write := false
  , ecl_load := false
  , fread_f := false
  , fwrite_f := false
  , realloc_data := false
  , free_data := false
  , serialize := false
  , deserialize := false
  , initialize_f := false
  , freef := false
  , clear := g.clear
  , copyc := false
  , scale := g.scale
  , iadd := g.iadd
  , imul := g.imul
  , isqrt := g.isqrt
  , iaddsqr := g.iaddsqr
  , fprintf_results := false
  , iget := false
  , get_index := false }

/-- The per-kind binding switch of `enkf_node_alloc_empty`: which function
pointers each implementation type registers. -/
def bound_caps (impl : enkf_impl_type) (g : ArithCaps) : Caps :=
  match impl with
  | .GEN_KW =>
    { caps_base g with
      realloc_data := true, alloc := true, ecl_write := true,
      fread_f := true, fwrite_f := true, copyc := true, initialize_f := true,
      serialize := true, deserialize := true, freef := true, free_data := true,
      fprintf_results := true }
  | .MULTZ =>
    { caps_base g with
      realloc_data := true, alloc := true, ecl_write := true,
      fread_f := true, fwrite_f := true, copyc := true, initialize_f := true,
      serialize := true, deserialize := true, freef := true, free_data := true }
  | .RELPERM =>
    { caps_base g with
      alloc := true, ecl_write := true, fread_f := true,
      fwrite_f := true, copyc := true, initialize_f := true, serialize := true,
      deserialize := true, freef := true, free_data := true }
  | .MULTFLT =>
    { caps_base g with
      realloc_data := true, alloc := true, ecl_write := true,
      fread_f := true, fwrite_f := true, copyc := true, initialize_f := true,
      serialize := true, deserialize := true, freef := true, free_data := true,
      fprintf_results := true }
  | .WELL =>
    { caps_base g with
      ecl_load := true, realloc_data := true, alloc := true,
      fread_f := true, fwrite_f := true, copyc := true, serialize := true,
      deserialize := true, freef := true, free_data := true,
      fprintf_results := true }
  | .SUMMARY =>
    { caps_base g with
      ecl_load := true, realloc_data := true, alloc := true,
      fread_f := true, fwrite_f := true, copyc := true, serialize := true,
      deserialize := true, freef := true, free_data := true }
  | .HAVANA_FAULT =>
    { caps_base g with
      realloc_data := true, alloc := true, ecl_write := true,
      fread_f := true, fwrite_f := true, copyc := true, serialize := true,
      deserialize := true, freef := true, free_data := true,
      initialize_f := true, fprintf_results := true }
  | .FIELD =>
    { caps_base g with
      realloc_data := true, alloc := true, ecl_write := true,
      ecl_load := true, fread_f := true, fwrite_f := true, copyc := true,
      initialize_f := true, serialize := true, deserialize := true,
      freef := true, free_data := true, iget := true }
  | .EQUIL =>
    { caps_base g with
      alloc := true, ecl_write := true, fread_f := true,
      fwrite_f := true, copyc := true, initialize_f := true, serialize := true,
      deserialize := true, freef := true, free_data := true }
  | .STATIC =>
    { caps_base g with
      realloc_data := true, ecl_write := true, alloc := true,
      fread_f := true, fwrite_f := true, copyc := true, freef := true,
      free_data := true }
  | .GEN_DATA =>
    { caps_base g with
      realloc_data := true, alloc := true, fread_f := true,
      fwrite_f := true, initialize_f := true, copyc := true, freef := true,
      free_data := true, ecl_write := true, serialize := true,
      deserialize := true }

/-- `struct enkf_node_struct`: bound capabilities, key, data pointer, config
back-reference, and the private cache state
(`__memory_allocated`, `__modified`, `__report_step`, `__state`).  The
serialization scratch cursor (`serial_state`) is not modelled: no claim
concerns it. -/
structure enkf_node_type where
  caps : Caps
  node_key : String
  data : Option DomainObject
  config : enkf_config_node_type
  memory_allocated : Bool
  modified : Bool
  report_step : Int
  state : state_enum
deriving DecidableEq

/-- Result of one operation: success with a value and the effect trace, or
one of the three abort flavours. -/
inductive Res (α : Type) where
  | ok : α → List Eff → Res α
  | contractViolation : Res α
  | fatal : Res α
  | ub : Res α
deriving DecidableEq

/-- Sequencing that propagates aborts. -/
def Res.bind (r : Res α) (f : α → List Eff → Res β) : Res β :=
  match r with
  | .ok a e => f a e
  | .contractViolation => .contractViolation
  | .fatal => .fatal
  | .ub => .ub

/-- Modelled from the spec: the low-level `xxx_realloc_data` capability is
missing from `src/`; per the spec and the memory rules documented in
`enkf_node.c` it is "always safe to call, i.e. if the object already has
allocated data the function should just return", so it allocates exactly
when the buffer is absent. -/
def domain_realloc_data (d : DomainObject) : DomainObject × List Eff :=
  if d.has_data then (d, []) else ({ has_data := true }, [.payloadAlloc])

/-- Modelled from the spec: the low-level `xxx_free_data` capability is
missing from `src/`; per the memory rules documented in `enkf_node.c` it
"frees the data of the object, and sets the data pointer to NULL", hence a
call on an already-freed object deallocates nothing. -/
def domain_free_data (d : DomainObject) : DomainObject × List Eff :=
  if d.has_data then ({ has_data := false }, [.payloadDealloc]) else (d, [])

/-- Modelled from the spec: the low-level `xxx_alloc` constructor is missing
from `src/`; `enkf_node_alloc_domain_object` records the freshly built
domain object as having allocated data (`__memory_allocated = true`). -/
def domain_alloc : DomainObject :=
  { has_data := true }

/-- `enkf_node_ensure_memory`: `FUNC_ASSERT(realloc_data)`, then reallocate
through the capability only when `__memory_allocated` is false. -/
def enkf_node_ensure_memory (n : enkf_node_type) : Res enkf_node_type :=
  if n.caps.realloc_data = false then .contractViolation
  else if n.memory_allocated = false then
    match n.data with
    | none => .ub
    | some d =>
      let p := domain_realloc_data d
      .ok { n with data := some p.1, memory_allocated := true } p.2
  else .ok n []

/-- `enkf_node_alloc_domain_object`: free an existing domain object through
`freef`, then build a fresh one through `alloc` and mark memory allocated. -/
def enkf_node_alloc_domain_object (n : enkf_node_type) : Res enkf_node_type :=
  match n.data with
  | some _ =>
    if n.caps.freef = false then .ub
    else if n.caps.alloc = false then .ub
    else .ok { n with data := some domain_alloc, memory_allocated := true }
      [.freefCall, .allocCall]
  | none =>
    if n.caps.alloc = false then .ub
    else .ok { n with data := some domain_alloc, memory_allocated := true }
      [.allocCall]

/-- `enkf_node_copyc`: aborts with a diagnostic when the `copyc` capability
is unbound; when it is bound, the source allocates a new node and then
unconditionally aborts after printing "not properly implemented". -/
def enkf_node_copyc (src : enkf_node_type) : Res enkf_node_type :=
  if src.caps.copyc = false then .contractViolation
  else .fatal

/-- `enkf_node_ecl_write`: silently returns when the `ecl_write` pointer is
NULL; otherwise dispatches to it with either the full target file (when the
config registers an output file) or the bare path. -/
def enkf_node_ecl_write (n : enkf_node_type) : Res Unit :=
  if n.caps.ecl_write then
    match n.data with
    | none => .ub
    | some _ =>
      match n.config.outfile with
      | some _ => .ok () [.eclWriteCall]
      | none => .ok () [.eclWriteCall]
  else .ok () []

/-- `enkf_node_ecl_load`: `FUNC_ASSERT(ecl_load)`, ensure memory, dispatch
to the loader with either the registered input file or the run path, then
set the cache tuple to (forecast, report_step, modified = false). -/
def enkf_node_ecl_load (n : enkf_node_type) (report_step : Int) :
    Res enkf_node_type :=
  if n.caps.ecl_load = false then .contractViolation
  else
    (enkf_node_ensure_memory n).bind fun n1 e1 =>
      match n1.data with
      | none => .ub
      | some _ =>
        match n1.config.infile with
        | some _ =>
          .ok { n1 with report_step := report_step, state := .forecast,
                        modified := false } (e1 ++ [.eclLoadCall])
        | none =>
          .ok { n1 with report_step := report_step, state := .forecast,
                        modified := false } (e1 ++ [.eclLoadCall])

/-- `enkf_node_fwrite`: `util_abort` when memory is not allocated,
`FUNC_ASSERT(fwrite_f)`, dispatch the write (whose boolean result
`data_written` comes from the low-level codec, taken as an input here), then
set the cache tuple to (state, report_step, modified = false). -/
def enkf_node_fwrite (n : enkf_node_type) (report_step : Int)
    (st : state_enum) (data_written : Bool) : Res (Bool × enkf_node_type) :=
  if n.memory_allocated = false then .fatal
  else if n.caps.fwrite_f = false then .contractViolation
  else
    match n.data with
    | none => .ub
    | some _ =>
      .ok (data_written,
           { n with report_step := report_step, state := st,
                    modified := false }) [.fwriteCall]

/-- `enkf_node_fread`: when the requested (report_step, state) equals the
cached tuple and the node is not modified, return at once without touching
the capability table, the storage or the stream; otherwise
`FUNC_ASSERT(fread_f)`, ensure memory, perform the read and set the cache
tuple to (state, report_step, modified = false). -/
def enkf_node_fread (n : enkf_node_type) (report_step : Int)
    (st : state_enum) : Res enkf_node_type :=
  if report_step = n.report_step ∧ st = n.state ∧ n.modified = false then
    .ok n []
  else if n.caps.fread_f = false then .contractViolation
  else
    (enkf_node_ensure_memory n).bind fun n1 e1 =>
      match n1.data with
      | none => .ub
      | some _ =>
        .ok { n1 with modified := false, report_step := report_step,
                      state := st } (e1 ++ [.freadCall])

/-- `enkf_node_serialize`: `FUNC_ASSERT(serialize)`, then
`enkf_node_assert_memory` (`util_abort` when memory is absent), then
dispatch; the cache tuple is untouched. -/
def enkf_node_serialize (n : enkf_node_type) : Res enkf_node_type :=
  if n.caps.serialize = false then .contractViolation
  else if n.memory_allocated = false then .fatal
  else
    match n.data with
    | none => .ub
    | some _ => .ok n [.serializeCall]

/-- `enkf_node_deserialize`: note that the source asserts the `serialize`
pointer (not `deserialize`), then invokes the `deserialize` pointer — a
NULL `deserialize` with a bound `serialize` would be called unchecked —
and finally sets `__modified = true`, leaving report_step and state
untouched. -/
def enkf_node_deserialize (n : enkf_node_type) : Res enkf_node_type :=
  if n.caps.serialize = false then .contractViolation
  else if n.caps.deserialize = false then .ub
  else
    match n.data with
    | none => .ub
    | some _ => .ok { n with modified := true } [.deserializeCall]

/-- `enkf_node_initialize`: when the initialization pointer is NULL the
call silently returns; otherwise ensure memory, dispatch, and set the cache
tuple to (analyzed, 0, modified = true). -/
def enkf_node_initialize_op (n : enkf_node_type) (_iens : Int) :
    Res enkf_node_type :=
  if n.caps.initialize_f then
    (enkf_node_ensure_memory n).bind fun n1 e1 =>
      match n1.data with
      | none => .ub
      | some _ =>
        .ok { n1 with report_step := 0, state := .analyzed,
                      modified := true } (e1 ++ [.initializeCall])
  else .ok n []

/-- `enkf_node_free_data`: `FUNC_ASSERT(free_data)`, dispatch the free, and
reset the cache state to (undefined, -1, modified = true) with
`__memory_allocated = false`. -/
def enkf_node_free_data (n : enkf_node_type) : Res enkf_node_type :=
  if n.caps.free_data = false then .contractViolation
  else
    match n.data with
    | none => .ub
    | some d =>
      let p := domain_free_data d
      .ok { n with data := some p.1, memory_allocated := false,
                   report_step := -1, state := .undefined,
                   modified := true } p.2

/-- `enkf_node_clear` (and the identical `enkf_node_ens_clear`):
`FUNC_ASSERT(clear)` then dispatch. -/
def enkf_node_clear (n : enkf_node_type) : Res enkf_node_type :=
  if n.caps.clear = false then .contractViolation
  else
    match n.data with
    | none => .ub
    | some _ => .ok n [.clearCall]

/-- `enkf_node_scale`: `FUNC_ASSERT(scale)` then dispatch (the scalar
factor is forwarded to the low-level routine and does not affect
dispatch). -/
def enkf_node_scale (n : enkf_node_type) : Res enkf_node_type :=
  if n.caps.scale = false then .contractViolation
  else
    match n.data with
    | none => .ub
    | some _ => .ok n [.scaleCall]

/-- `enkf_node_sqrt`: `FUNC_ASSERT(isqrt)` then dispatch. -/
def enkf_node_sqrt (n : enkf_node_type) : Res enkf_node_type :=
  if n.caps.isqrt = false then .contractViolation
  else
    match n.data with
    | none => .ub
    | some _ => .ok n [.sqrtCall]

/-- `enkf_node_iadd`: `FUNC_ASSERT(iadd)` then dispatch on both data
pointers. -/
def enkf_node_iadd (n delta : enkf_node_type) : Res enkf_node_type :=
  if n.caps.iadd = false then .contractViolation
  else
    match n.data, delta.data with
    | some _, some _ => .ok n [.iaddCall]
    | _, _ => .ub

/-- `enkf_node_imul`: `FUNC_ASSERT(imul)` then dispatch on both data
pointers. -/
def enkf_node_imul (n delta : enkf_node_type) : Res enkf_node_type :=
  if n.caps.imul = false then .contractViolation
  else
    match n.data, delta.data with
    | some _, some _ => .ok n [.imulCall]
    | _, _ => .ub

/-- `enkf_node_iaddsqr`: `FUNC_ASSERT(iaddsqr)` then dispatch on both data
pointers. -/
def enkf_node_iaddsqr (n delta : enkf_node_type) : Res enkf_node_type :=
  if n.caps.iaddsqr = false then .contractViolation
  else
    match n.data, delta.data with
    | some _, some _ => .ok n [.iaddsqrCall]
    | _, _ => .ub

/-- `enkf_node_ensemble_fprintf_results`: the `FUNC_ASSERT` on
`fprintf_results` is commented out in the source; the function gathers the
member data pointers and invokes `ensemble[0]->fprintf_results` unchecked,
so an unbound formatter pointer is dereferenced. -/
def enkf_node_ensemble_fprintf_results (ensemble : List enkf_node_type) :
    Res Unit :=
  match ensemble with
  | [] => .ub
  | n0 :: rest =>
    if n0.caps.fprintf_results = false then .ub
    else if (n0 :: rest).all (fun m => m.data.isSome) then .ok () [.fprintfCall]
    else .ub

/-- `enkf_node_alloc_empty`: build the node with cache state
(undefined, -1, modified = true), no data, memory not allocated, and the
per-kind capability bindings (`g` supplies the six pointers the source
leaves uninitialized). -/
def enkf_node_alloc_empty (config : enkf_config_node_type) (g : ArithCaps) :
    enkf_node_type :=
  { caps := bound_caps config.impl_type g
  , node_key := config.key
  , data := none
  , config := config
  , memory_allocated := false
  , modified := true
  , report_step := -1
  , state := .undefined }

/-- `enkf_node_alloc__`: `enkf_node_alloc_empty` immediately followed by
`enkf_node_alloc_domain_object`. -/
def enkf_node_alloc_under (config : enkf_config_node_type) (g : ArithCaps) :
    Res enkf_node_type :=
  enkf_node_alloc_domain_object (enkf_node_alloc_empty config g)

/-- `enkf_node_alloc`: `util_abort` on a NULL config, otherwise
`enkf_node_alloc__`. -/
def enkf_node_alloc (config : Option enkf_config_node_type) (g : ArithCaps) :
    Res enkf_node_type :=
  match config with
  | none => .fatal
  | some cfg => enkf_node_alloc_under cfg g

/-- One public operation on a single node, as dispatched by the
orchestrator; the arguments mirror the C signatures (stream/path handles,
which carry no dispatch-relevant information, are omitted). -/
inductive Op where
  | initMember (iens : Int)
  | fread (report_step : Int) (st : state_enum)
  | eclLoad (report_step : Int)
  | eclWrite
  | fwrite (report_step : Int) (st : state_enum) (data_written : Bool)
  | deserial
  | serial
  | freeData
  | clearOp
  | scaleOp
  | sqrtOp
  | iaddOp (delta : enkf_node_type)
  | imulOp (delta : enkf_node_type)
  | iaddsqrOp (delta : enkf_node_type)
deriving DecidableEq

/-- Dispatch one public operation on the node. -/
def runOp (n : enkf_node_type) : Op → Res enkf_node_type
  | .initMember i => enkf_node_initialize_op n i
  | .fread r s => enkf_node_fread n r s
  | .eclLoad r => enkf_node_ecl_load n r
  | .eclWrite => (enkf_node_ecl_write n).bind fun _ e => .ok n e
  | .fwrite r s dw => (enkf_node_fwrite n r s dw).bind fun p e => .ok p.2 e
  | .deserial => enkf_node_deserialize n
  | .serial => enkf_node_serialize n
  | .freeData => enkf_node_free_data n
  | .clearOp => enkf_node_clear n
  | .scaleOp => enkf_node_scale n
  | .sqrtOp => enkf_node_sqrt n
  | .iaddOp delta => enkf_node_iadd n delta
  | .imulOp delta => enkf_node_imul n delta
  | .iaddsqrOp delta => enkf_node_iaddsqr n delta

/-- Run a sequence of public operations, propagating aborts and
concatenating the effect traces. -/
def runOps (n : enkf_node_type) : List Op → Res enkf_node_type
  | [] => .ok n []
  | op :: rest =>
    (runOp n op).bind fun n1 e1 =>
      (runOps n1 rest).bind fun n2 e2 => .ok n2 (e1 ++ e2)

/-- A concrete FIELD configuration used by witnesses. -/
def fieldConfig : enkf_config_node_type :=
  { key := "PERMX", impl_type := .FIELD, infile := none, outfile := none }

/-- A concrete WELL configuration used by counterexamples. -/
def wellConfig : enkf_config_node_type :=
  { key := "WGOR1", impl_type := .WELL, infile := none, outfile := none }

/-- A malloc leftover where the six uninitialized arithmetic pointers all
happen to be NULL. -/
def noGarbage : ArithCaps :=
  { clear := false, scale := false, iadd := false, imul := false,
    isqrt := false, iaddsqr := false }

/-- The node produced by the public constructor on `fieldConfig`: domain
object allocated and memory marked allocated. -/
def fieldNode : enkf_node_type :=
  { caps := bound_caps .FIELD noGarbage
  , node_key := "PERMX"
  , data := some { has_data := true }
  , config := fieldConfig
  , memory_allocated := true
  , modified := true
  , report_step := -1
  , state := .undefined }

/-- The node produced by the public constructor on `wellConfig`. -/
def wellNode : enkf_node_type :=
  { caps := bound_caps .WELL noGarbage
  , node_key := "WGOR1"
  , data := some { has_data := true }
  , config := wellConfig
  , memory_allocated := true
  , modified := true
  , report_step := -1
  , state := .undefined }

/-- Sanity: the public constructor on `fieldConfig` yields `fieldNode`. -/
theorem fieldNode_alloc :
    enkf_node_alloc (some fieldConfig) noGarbage = .ok fieldNode [.allocCall] := by
  rfl

/-- Sanity: the public constructor on `wellConfig` yields `wellNode`. -/
theorem wellNode_alloc :
    enkf_node_alloc (some wellConfig) noGarbage = .ok wellNode [.allocCall] := by
  rfl

/-- Inversion for `enkf_node_ensure_memory`: success leaves the cache tuple
untouched and guarantees allocated memory. -/
theorem ensure_memory_ok {n n1 : enkf_node_type} {e : List Eff}
    (h : enkf_node_ensure_memory n = .ok n1 e) :
    n1.memory_allocated = true ∧ n1.modified = n.modified ∧
    n1.report_step = n.report_step ∧ n1.state = n.state ∧ n1.caps = n.caps := by
  unfold enkf_node_ensure_memory at h
  by_cases hra : n.caps.realloc_data = false
  · rw [if_pos hra] at h
    cases h
  · rw [if_neg hra] at h
    by_cases hm : n.memory_allocated = false
    · rw [if_pos hm] at h
      cases hd : n.data with
      | none => rw [hd] at h; cases h
      | some d =>
        rw [hd] at h
        injection h with h1 h2
        subst h1
        simp
    · rw [if_neg hm] at h
      injection h with h1 h2
      subst h1
      simp at hm
      simp [hm]

/-- Inversion for `enkf_node_fread`: a successful call either took the skip
path (node returned untouched) or performed the read and set the cache. -/
theorem fread_ok_cases {n n1 : enkf_node_type} {rs : Int} {st : state_enum}
    {e : List Eff} (h : enkf_node_fread n rs st = .ok n1 e) :
    (n1 = n ∧ e = []) ∨
    (n1.report_step = rs ∧ n1.state = st ∧ n1.modified = false ∧
     n1.memory_allocated = true ∧ n1.caps = n.caps) := by
  unfold enkf_node_fread at h
  by_cases hskip : rs = n.report_step ∧ st = n.state ∧ n.modified = false
  · rw [if_pos hskip] at h
    injection h with h1 h2
    subst h1
    exact Or.inl ⟨rfl, h2.symm⟩
  · rw [if_neg hskip] at h
    by_cases hf : n.caps.fread_f = false
    · rw [if_pos hf] at h
      cases h
    · rw [if_neg hf] at h
      right
      cases he : enkf_node_ensure_memory n with
      | ok n2 e2 =>
        rw [he] at h
        simp only [Res.bind] at h
        obtain ⟨hm2, -, -, -, hc2⟩ := ensure_memory_ok he
        cases hd : n2.data with
        | none => rw [hd] at h; cases h
        | some d =>
          rw [hd] at h
          injection h with h1 h2
          subst h1
          simp [hm2, hc2]
      | contractViolation => rw [he] at h; simp [Res.bind] at h
      | fatal => rw [he] at h; simp [Res.bind] at h
      | ub => rw [he] at h; simp [Res.bind] at h

/-- Inversion for `enkf_node_ecl_load`: success sets
(forecast, report_step, modified = false) with memory allocated. -/
theorem ecl_load_ok_cases {n n1 : enkf_node_type} {rs : Int} {e : List Eff}
    (h : enkf_node_ecl_load n rs = .ok n1 e) :
    n1.report_step = rs ∧ n1.state = .forecast ∧ n1.modified = false ∧
    n1.memory_allocated = true ∧ n1.caps = n.caps := by
  unfold enkf_node_ecl_load at h
  by_cases hl : n.caps.ecl_load = false
  · rw [if_pos hl] at h
    cases h
  · rw [if_neg hl] at h
    cases he : enkf_node_ensure_memory n with
    | ok n2 e2 =>
      rw [he] at h
      simp only [Res.bind] at h
      obtain ⟨hm2, -, -, -, hc2⟩ := ensure_memory_ok he
      cases hd : n2.data with
      | none => rw [hd] at h; cases h
      | some d =>
        rw [hd] at h
        cases hi : n2.config.infile with
        | some f =>
          rw [hi] at h
          injection h with h1 h2
          subst h1
          simp [hm2, hc2]
        | none =>
          rw [hi] at h
          injection h with h1 h2
          subst h1
          simp [hm2, hc2]
    | contractViolation => rw [he] at h; simp [Res.bind] at h
    | fatal => rw [he] at h; simp [Res.bind] at h
    | ub => rw [he] at h; simp [Res.bind] at h

/-- Inversion for `enkf_node_fwrite`: success requires allocated memory and
sets (state, report_step, modified = false), leaving memory allocated. -/
theorem fwrite_ok_cases {n n1 : enkf_node_type} {rs : Int} {st : state_enum}
    {dw dw1 : Bool} {e : List Eff}
    (h : enkf_node_fwrite n rs st dw = .ok (dw1, n1) e) :
    n1.report_step = rs ∧ n1.state = st ∧ n1.modified = false ∧
    n1.memory_allocated = true ∧ n1.caps = n.caps := by
  unfold enkf_node_fwrite at h
  by_cases hm : n.memory_allocated = false
  · rw [if_pos hm] at h
    cases h
  · rw [if_neg hm] at h
    by_cases hw : n.caps.fwrite_f = false
    · rw [if_pos hw] at h
      cases h
    · rw [if_neg hw] at h
      cases hd : n.data with
      | none => rw [hd] at h; cases h
      | some d =>
        rw [hd] at h
        injection h with h1 h2
        injection h1 with h1a h1b
        subst h1b
        simp at hm
        simp [hm]

/-- Inversion for `enkf_node_deserialize`: success flips `__modified` to
true and changes nothing else. -/
theorem deserialize_ok_cases {n n1 : enkf_node_type} {e : List Eff}
    (h : enkf_node_deserialize n = .ok n1 e) :
    n1 = { n with modified := true } := by
  unfold enkf_node_deserialize at h
  by_cases hs : n.caps.serialize = false
  · rw [if_pos hs] at h
    cases h
  · rw [if_neg hs] at h
    by_cases hds : n.caps.deserialize = false
    · rw [if_pos hds] at h
      cases h
    · rw [if_neg hds] at h
      cases hd : n.data with
      | none => rw [hd] at h; cases h
      | some d =>
        rw [hd] at h
        injection h with h1 h2
        exact h1.symm

/-- Inversion for `enkf_node_initialize_op`: either the kind has no
initialization pointer and the node is untouched, or the cache becomes
(analyzed, 0, modified = true) with memory allocated. -/
theorem initialize_op_ok_cases {n n1 : enkf_node_type} {i : Int}
    {e : List Eff} (h : enkf_node_initialize_op n i = .ok n1 e) :
    (n1 = n ∧ e = []) ∨
    (n1.report_step = 0 ∧ n1.state = .analyzed ∧ n1.modified = true ∧
     n1.memory_allocated = true ∧ n1.caps = n.caps) := by
  unfold enkf_node_initialize_op at h
  by_cases hi : n.caps.initialize_f
  · rw [if_pos hi] at h
    right
    cases he : enkf_node_ensure_memory n with
    | ok n2 e2 =>
      rw [he] at h
      simp only [Res.bind] at h
      obtain ⟨hm2, -, -, -, hc2⟩ := ensure_memory_ok he
      cases hd : n2.data with
      | none => rw [hd] at h; cases h
      | some d =>
        rw [hd] at h
        injection h with h1 h2
        subst h1
        simp [hm2, hc2]
    | contractViolation => rw [he] at h; simp [Res.bind] at h
    | fatal => rw [he] at h; simp [Res.bind] at h
    | ub => rw [he] at h; simp [Res.bind] at h
  · rw [if_neg hi] at h
    injection h with h1 h2
    subst h1
    exact Or.inl ⟨rfl, h2.symm⟩

/-- Inversion for `enkf_node_free_data`: success resets the cache state to
(undefined, -1, modified = true) with memory deallocated. -/
theorem free_data_ok_cases {n n1 : enkf_node_type} {e : List Eff}
    (h : enkf_node_free_data n = .ok n1 e) :
    n1.report_step = -1 ∧ n1.state = .undefined ∧ n1.modified = true ∧
    n1.memory_allocated = false ∧ n1.caps = n.caps := by
  unfold enkf_node_free_data at h
  by_cases hf : n.caps.free_data = false
  · rw [if_pos hf] at h
    cases h
  · rw [if_neg hf] at h
    cases hd : n.data with
    | none => rw [hd] at h; cases h
    | some d =>
      rw [hd] at h
      injection h with h1 h2
      subst h1
      simp

/-- The state-preserving dispatchers (`ecl_write`, `serialize`, `clear`,
`scale`, `sqrt`, `iadd`, `imul`, `iaddsqr`) return the node unchanged:
stated for `runOp` directly. -/
theorem runOp_preserving_ok {n n1 : enkf_node_type} {op : Op} {e : List Eff}
    (hop : op = .eclWrite ∨ op = .serial ∨ op = .clearOp ∨ op = .scaleOp ∨
           op = .sqrtOp ∨ (∃ m, op = .iaddOp m) ∨ (∃ m, op = .imulOp m) ∨
           (∃ m, op = .iaddsqrOp m))
    (h : runOp n op = .ok n1 e) : n1 = n := by
  rcases hop with rfl | rfl | rfl | rfl | rfl | ⟨m, rfl⟩ | ⟨m, rfl⟩ | ⟨m, rfl⟩
  · simp only [runOp] at h
    cases hw : enkf_node_ecl_write n with
    | ok u e2 => rw [hw] at h; simp only [Res.bind] at h; injection h with h1 h2; exact h1.symm
    | contractViolation => rw [hw] at h; simp [Res.bind] at h
    | fatal => rw [hw] at h; simp [Res.bind] at h
    | ub => rw [hw] at h; simp [Res.bind] at h
  · simp only [runOp, enkf_node_serialize] at h
    by_cases hs : n.caps.serialize = false
    · rw [if_pos hs] at h; cases h
    · rw [if_neg hs] at h
      by_cases hm : n.memory_allocated = false
      · rw [if_pos hm] at h; cases h
      · rw [if_neg hm] at h
        cases hd : n.data with
        | none => rw [hd] at h; cases h
        | some d => rw [hd] at h; injection h with h1 h2; exact h1.symm
  · simp only [runOp, enkf_node_clear] at h
    by_cases hc : n.caps.clear = false
    · rw [if_pos hc] at h; cases h
    · rw [if_neg hc] at h
      cases hd : n.data with
      | none => rw [hd] at h; cases h
      | some d => rw [hd] at h; injection h with h1 h2; exact h1.symm
  · simp only [runOp, enkf_node_scale] at h
    by_cases hc : n.caps.scale = false
    · rw [if_pos hc] at h; cases h
    · rw [if_neg hc] at h
      cases hd : n.data with
      | none => rw [hd] at h; cases h
      | some d => rw [hd] at h; injection h with h1 h2; exact h1.symm
  · simp only [runOp, enkf_node_sqrt] at h
    by_cases hc : n.caps.isqrt = false
    · rw [if_pos hc] at h; cases h
    · rw [if_neg hc] at h
      cases hd : n.data with
      | none => rw [hd] at h; cases h
      | some d => rw [hd] at h; injection h with h1 h2; exact h1.symm
  · simp only [runOp, enkf_node_iadd] at h
    by_cases hc : n.caps.iadd = false
    · rw [if_pos hc] at h; cases h
    · rw [if_neg hc] at h
      cases hd : n.data with
      | none => rw [hd] at h; cases h
      | some d =>
        rw [hd] at h
        cases hd2 : m.data with
        | none => rw [hd2] at h; cases h
        | some d2 => rw [hd2] at h; injection h with h1 h2; exact h1.symm
  · simp only [runOp, enkf_node_imul] at h
    by_cases hc : n.caps.imul = false
    · rw [if_pos hc] at h; cases h
    · rw [if_neg hc] at h
      cases hd : n.data with
      | none => rw [hd] at h; cases h
      | some d =>
        rw [hd] at h
        cases hd2 : m.data with
        | none => rw [hd2] at h; cases h
        | some d2 => rw [hd2] at h; injection h with h1 h2; exact h1.symm
  · simp only [runOp, enkf_node_iaddsqr] at h
    by_cases hc : n.caps.iaddsqr = false
    · rw [if_pos hc] at h; cases h
    · rw [if_neg hc] at h
      cases hd : n.data with
      | none => rw [hd] at h; cases h
      | some d =>
        rw [hd] at h
        cases hd2 : m.data with
        | none => rw [hd2] at h; cases h
        | some d2 => rw [hd2] at h; injection h with h1 h2; exact h1.symm

/-- A state tag other than `undefined`. -/
def goodState : state_enum → Bool
  | .undefined => false
  | .forecast => true
  | .analyzed => true

/-- Well-formed orchestrator arguments: load/write style calls name a real
report step (≥ 0) and a real snapshot tag (forecast or analyzed). -/
def goodOp : Op → Bool
  | .fread rs st => decide (0 ≤ rs) && goodState st
  | .fwrite rs st _ => decide (0 ≤ rs) && goodState st
  | .eclLoad rs => decide (0 ≤ rs)
  | _ => true

/-- The phase/report-step invariant of the cache tuple. -/
def inv9 (n : enkf_node_type) : Prop :=
  n.state = .undefined ↔ n.report_step = -1

/-- One successful, well-argumented public operation preserves the
phase/report-step invariant. -/
theorem inv9_step {n n1 : enkf_node_type} {op : Op} {e : List Eff}
    (hop : goodOp op = true) (h : runOp n op = .ok n1 e) (hn : inv9 n) :
    inv9 n1 := by
  cases op with
  | initMember i =>
    simp only [runOp] at h
    rcases initialize_op_ok_cases h with ⟨rfl, -⟩ | ⟨h1, h2, -, -, -⟩
    · exact hn
    · unfold inv9
      rw [h1, h2]
      constructor
      · intro hc; cases hc
      · intro hc; exfalso; omega
  | fread rs st =>
    simp only [runOp] at h
    rcases fread_ok_cases h with ⟨rfl, -⟩ | ⟨h1, h2, -, -, -⟩
    · exact hn
    · unfold inv9
      rw [h1, h2]
      simp only [goodOp, Bool.and_eq_true, decide_eq_true_eq] at hop
      obtain ⟨hrs, hst⟩ := hop
      constructor
      · intro hc
        rw [hc] at hst
        simp [goodState] at hst
      · intro hc
        rw [hc] at hrs
        exfalso; omega
  | eclLoad rs =>
    simp only [runOp] at h
    obtain ⟨h1, h2, -, -, -⟩ := ecl_load_ok_cases h
    unfold inv9
    rw [h1, h2]
    simp only [goodOp, decide_eq_true_eq] at hop
    constructor
    · intro hc; cases hc
    · intro hc
      rw [hc] at hop
      exfalso; omega
  | fwrite rs st dw =>
    simp only [runOp] at h
    cases hw : enkf_node_fwrite n rs st dw with
    | ok p e2 =>
      obtain ⟨dw1, m⟩ := p
      rw [hw] at h
      simp only [Res.bind] at h
      injection h with h1 h2
      subst h1
      obtain ⟨h1, h2, -, -, -⟩ := fwrite_ok_cases hw
      unfold inv9
      rw [h1, h2]
      simp only [goodOp, Bool.and_eq_true, decide_eq_true_eq] at hop
      obtain ⟨hrs, hst⟩ := hop
      constructor
      · intro hc
        rw [hc] at hst
        simp [goodState] at hst
      · intro hc
        rw [hc] at hrs
        exfalso; omega
    | contractViolation => rw [hw] at h; simp [Res.bind] at h
    | fatal => rw [hw] at h; simp [Res.bind] at h
    | ub => rw [hw] at h; simp [Res.bind] at h
  | deserial =>
    simp only [runOp] at h
    have h1 := deserialize_ok_cases h
    subst h1
    exact hn
  | freeData =>
    simp only [runOp] at h
    obtain ⟨h1, h2, -, -, -⟩ := free_data_ok_cases h
    unfold inv9
    rw [h1, h2]
    simp
  | eclWrite => rw [runOp_preserving_ok (by simp) h]; exact hn
  | serial => rw [runOp_preserving_ok (by simp) h]; exact hn
  | clearOp => rw [runOp_preserving_ok (by simp) h]; exact hn
  | scaleOp => rw [runOp_preserving_ok (by simp) h]; exact hn
  | sqrtOp => rw [runOp_preserving_ok (by simp) h]; exact hn
  | iaddOp m => rw [runOp_preserving_ok (by simp) h]; exact hn
  | imulOp m => rw [runOp_preserving_ok (by simp) h]; exact hn
  | iaddsqrOp m => rw [runOp_preserving_ok (by simp) h]; exact hn

/-- The staleness/storage invariant: a node whose memory image is trusted
(`__modified = false`) has its storage allocated. -/
def inv10 (n : enkf_node_type) : Prop :=
  n.modified = false → n.memory_allocated = true

/-- Every successful public operation preserves `inv10`, with no
restriction on arguments. -/
theorem inv10_step {n n1 : enkf_node_type} {op : Op} {e : List Eff}
    (h : runOp n op = .ok n1 e) (hn : inv10 n) : inv10 n1 := by
  cases op with
  | initMember i =>
    simp only [runOp] at h
    rcases initialize_op_ok_cases h with ⟨rfl, -⟩ | ⟨-, -, -, h4, -⟩
    · exact hn
    · intro hm; exact h4
  | fread rs st =>
    simp only [runOp] at h
    rcases fread_ok_cases h with ⟨rfl, -⟩ | ⟨-, -, -, h4, -⟩
    · exact hn
    · intro hm; exact h4
  | eclLoad rs =>
    simp only [runOp] at h
    obtain ⟨-, -, -, h4, -⟩ := ecl_load_ok_cases h
    intro hm; exact h4
  | fwrite rs st dw =>
    simp only [runOp] at h
    cases hw : enkf_node_fwrite n rs st dw with
    | ok p e2 =>
      obtain ⟨dw1, m⟩ := p
      rw [hw] at h
      simp only [Res.bind] at h
      injection h with h1 h2
      subst h1
      obtain ⟨-, -, -, h4, -⟩ := fwrite_ok_cases hw
      intro hm; exact h4
    | contractViolation => rw [hw] at h; simp [Res.bind] at h
    | fatal => rw [hw] at h; simp [Res.bind] at h
    | ub => rw [hw] at h; simp [Res.bind] at h
  | deserial =>
    simp only [runOp] at h
    have h1 := deserialize_ok_cases h
    subst h1
    intro hm
    simp at hm
  | freeData =>
    simp only [runOp] at h
    obtain ⟨-, -, h3, -, -⟩ := free_data_ok_cases h
    intro hm
    rw [h3] at hm
    cases hm
  | eclWrite => rw [runOp_preserving_ok (by simp) h]; exact hn
  | serial => rw [runOp_preserving_ok (by simp) h]; exact hn
  | clearOp => rw [runOp_preserving_ok (by simp) h]; exact hn
  | scaleOp => rw [runOp_preserving_ok (by simp) h]; exact hn
  | sqrtOp => rw [runOp_preserving_ok (by simp) h]; exact hn
  | iaddOp m => rw [runOp_preserving_ok (by simp) h]; exact hn
  | imulOp m => rw [runOp_preserving_ok (by simp) h]; exact hn
  | iaddsqrOp m => rw [runOp_preserving_ok (by simp) h]; exact hn

/-- Any property preserved by each successful step holds after a successful
run of a whole operation sequence. -/
theorem runOps_preserves {n1 : enkf_node_type} (P : enkf_node_type → Prop)
    {ops : List Op} {n : enkf_node_type} {e : List Eff}
    (hstep : ∀ m m1 op e1, op ∈ ops → runOp m op = .ok m1 e1 → P m → P m1)
    (h : runOps n ops = .ok n1 e) (hn : P n) : P n1 := by
  induction ops generalizing n e with
  | nil =>
    simp only [runOps] at h
    injection h with h1 h2
    subst h1
    exact hn
  | cons op rest ih =>
    simp only [runOps] at h
    cases hr : runOp n op with
    | ok m e1 =>
      rw [hr] at h
      simp only [Res.bind] at h
      cases hrs : runOps m rest with
      | ok m2 e2 =>
        rw [hrs] at h
        simp only [Res.bind] at h
        injection h with h1 h2
        subst h1
        exact ih (fun a a1 o e3 ho => hstep a a1 o e3 (List.mem_cons_of_mem _ ho))
          hrs (hstep n m op e1 (List.mem_cons_self _ _) hr hn)
      | contractViolation => rw [hrs] at h; simp [Res.bind] at h
      | fatal => rw [hrs] at h; simp [Res.bind] at h
      | ub => rw [hrs] at h; simp [Res.bind] at h
    | contractViolation => rw [hr] at h; simp [Res.bind] at h
    | fatal => rw [hr] at h; simp [Res.bind] at h
    | ub => rw [hr] at h; simp [Res.bind] at h

/-- A successful public construction yields the initial cache tuple with the
domain object already allocated. -/
theorem alloc_ok_fields {cfg : enkf_config_node_type} {g : ArithCaps}
    {n0 : enkf_node_type} {e : List Eff}
    (h : enkf_node_alloc (some cfg) g = .ok n0 e) :
    n0.state = .undefined ∧ n0.report_step = -1 ∧ n0.modified = true ∧
    n0.memory_allocated = true ∧ n0.data = some domain_alloc := by
  simp only [enkf_node_alloc, enkf_node_alloc_under,
    enkf_node_alloc_domain_object, enkf_node_alloc_empty] at h
  by_cases ha : (bound_caps cfg.impl_type g).alloc = false
  · rw [if_pos ha] at h
    cases h
  · rw [if_neg ha] at h
    injection h with h1 h2
    subst h1
    simp

/-- Helper: on a cache miss (or dirty node) with the read and reallocate
capabilities bound and a live domain object, `enkf_node_fread` performs the
read and installs the requested cache tuple with memory allocated. -/
theorem fread_read_path (n : enkf_node_type) (rs : Int) (st : state_enum)
    (d : DomainObject)
    (hskip : ¬ (rs = n.report_step ∧ st = n.state ∧ n.modified = false))
    (hfr : n.caps.fread_f = true) (hra : n.caps.realloc_data = true)
    (hd : n.data = some d) :
    ∃ n2 pre, enkf_node_fread n rs st = .ok n2 (pre ++ [.freadCall]) ∧
      n2.report_step = rs ∧ n2.state = st ∧ n2.modified = false ∧
      n2.memory_allocated = true := by
  unfold enkf_node_fread
  rw [if_neg hskip, if_neg (by simp [hfr])]
  unfold enkf_node_ensure_memory
  rw [if_neg (by simp [hra])]
  by_cases hm : n.memory_allocated = false
  · rw [if_pos hm, hd]
    simp only [Res.bind]
    exact ⟨_, (domain_realloc_data d).2, rfl, rfl, rfl, rfl, rfl⟩
  · rw [if_neg hm]
    simp only [Res.bind]
    rw [hd]
    refine ⟨_, [], rfl, rfl, rfl, rfl, ?_⟩
    simpa using hm

/-- A FIELD node freshly loaded at (5, analyzed): clean cache. -/
def fieldLoaded : enkf_node_type :=
  { fieldNode with
    report_step := 5, state := .analyzed, modified := false }

/-- The same node after a deserialize: dirty cache. -/
def fieldDirty : enkf_node_type :=
  { fieldNode with
    report_step := 5, state := .analyzed, modified := true }

/-- C1: `enkf_node_fread` (load-from-store) with the current cache tuple
equal to (state, report_step) and `__modified = false` performs no I/O (no
capability invoked, no reallocation, node unchanged) and returns success;
in every other case it ensures storage, performs the actual read through
the bound capability, and installs (state, report_step, modified = false). -/
theorem C1_fread_cache (n : enkf_node_type) (rs : Int) (st : state_enum)
    (d : DomainObject)
    (hfr : n.caps.fread_f = true) (hra : n.caps.realloc_data = true)
    (hd : n.data = some d) :
    (rs = n.report_step ∧ st = n.state ∧ n.modified = false →
        enkf_node_fread n rs st = .ok n []) ∧
    (¬ (rs = n.report_step ∧ st = n.state ∧ n.modified = false) →
        ∃ n2 pre, enkf_node_fread n rs st = .ok n2 (pre ++ [.freadCall]) ∧
          n2.report_step = rs ∧ n2.state = st ∧ n2.modified = false ∧
          n2.memory_allocated = true) := by
  constructor
  · intro hskip
    unfold enkf_node_fread
    rw [if_pos hskip]
  · intro hskip
    exact fread_read_path n rs st d hskip hfr hra hd

/-- C1 witness: a node cleanly loaded at (5, analyzed) hits the cache at
(5, analyzed): the load returns success with an empty effect trace and the
node unchanged. -/
theorem C1_fread_cache_witness :
    enkf_node_fread fieldLoaded 5 .analyzed = .ok fieldLoaded [] :=
  (C1_fread_cache fieldLoaded 5 .analyzed { has_data := true } rfl rfl
    rfl).1 (by decide)

/-- C2: `enkf_node_deserialize` sets `__modified = true` while leaving the
report step and state untouched; a subsequent `enkf_node_fread` at the
previously matching (report_step, state) therefore takes the actual-read
path (the read capability is invoked). -/
theorem C2_deserialize_forces_reload (n : enkf_node_type) (d : DomainObject)
    (hs : n.caps.serialize = true) (hds : n.caps.deserialize = true)
    (hd : n.data = some d) :
    enkf_node_deserialize n = .ok { n with modified := true } [.deserializeCall] ∧
    (n.caps.fread_f = true → n.caps.realloc_data = true →
      ∃ n3 pre,
        enkf_node_fread { n with modified := true } n.report_step n.state
          = .ok n3 (pre ++ [.freadCall]) ∧
        n3.report_step = n.report_step ∧ n3.state = n.state ∧
        n3.modified = false) := by
  constructor
  · unfold enkf_node_deserialize
    rw [if_neg (by simp [hs]), if_neg (by simp [hds]), hd]
  · intro hfr hra
    have hskip : ¬ (n.report_step =
        ({ n with modified := true } : enkf_node_type).report_step ∧
        n.state = ({ n with modified := true } : enkf_node_type).state ∧
        ({ n with modified := true } : enkf_node_type).modified = false) := by
      intro hc
      exact absurd hc.2.2 (by simp)
    obtain ⟨n3, pre, h1, h2, h3, h4, -⟩ :=
      fread_read_path { n with modified := true } n.report_step n.state d
        hskip hfr hra (by simpa using hd)
    exact ⟨n3, pre, h1, h2, h3, h4⟩

/-- C2 witness: deserializing a FIELD node cleanly loaded at (5, analyzed)
marks it dirty while leaving the cached tuple in place. -/
theorem C2_deserialize_forces_reload_witness :
    enkf_node_deserialize fieldLoaded =
      .ok { fieldLoaded with modified := true } [.deserializeCall] :=
  (C2_deserialize_forces_reload fieldLoaded { has_data := true } rfl rfl
    rfl).1

/-- A STATIC configuration: the STATIC kind binds neither `ecl_load`,
`serialize`, `deserialize` nor the initialization pointer. -/
def staticConfig : enkf_config_node_type :=
  { key := "STATICKW", impl_type := .STATIC, infile := none, outfile := none }

/-- The node produced by the public constructor on `staticConfig`. -/
def staticNode : enkf_node_type :=
  { caps := bound_caps .STATIC noGarbage
  , node_key := "STATICKW"
  , data := some { has_data := true }
  , config := staticConfig
  , memory_allocated := true
  , modified := true
  , report_step := -1
  , state := .undefined }

/-- C3 counterexample: the WELL kind binds no initialization pointer, yet
`enkf_node_initialize` on a WELL node silently returns success instead of
failing fatally with a contract violation. -/
theorem C3_counterexample_silent_skip :
    enkf_node_alloc (some wellConfig) noGarbage = .ok wellNode [.allocCall] ∧
    wellNode.caps.initialize_f = false ∧
    enkf_node_initialize_op wellNode 0 = .ok wellNode [] ∧
    enkf_node_initialize_op wellNode 0 ≠ .contractViolation := by
  refine ⟨rfl, rfl, rfl, ?_⟩
  decide

/-- C3 (amended): invoking an unbound capability through load-from-store
(on its non-skip path), write-to-store (with memory allocated), serialize,
deserialize (which asserts the serialize pointer), the external load, or
the arithmetic primitives fails fatally with a contract violation; but
initialize and the external ECLIPSE write silently return when their
capability is unbound. -/
theorem C3_amended_unbound_dispatch (n delta : enkf_node_type) (rs i : Int)
    (st : state_enum) (dw : Bool)
    (hskip : ¬ (rs = n.report_step ∧ st = n.state ∧ n.modified = false))
    (hmem : n.memory_allocated = true) :
    (n.caps.fread_f = false → enkf_node_fread n rs st = .contractViolation) ∧
    (n.caps.fwrite_f = false →
      enkf_node_fwrite n rs st dw = .contractViolation) ∧
    (n.caps.serialize = false → enkf_node_serialize n = .contractViolation) ∧
    (n.caps.serialize = false → enkf_node_deserialize n = .contractViolation) ∧
    (n.caps.ecl_load = false → enkf_node_ecl_load n rs = .contractViolation) ∧
    (n.caps.clear = false → enkf_node_clear n = .contractViolation) ∧
    (n.caps.scale = false → enkf_node_scale n = .contractViolation) ∧
    (n.caps.isqrt = false → enkf_node_sqrt n = .contractViolation) ∧
    (n.caps.iadd = false → enkf_node_iadd n delta = .contractViolation) ∧
    (n.caps.imul = false → enkf_node_imul n delta = .contractViolation) ∧
    (n.caps.iaddsqr = false →
      enkf_node_iaddsqr n delta = .contractViolation) ∧
    (n.caps.initialize_f = false →
      enkf_node_initialize_op n i = .ok n []) ∧
    (n.caps.ecl_write = false → enkf_node_ecl_write n = .ok () []) := by
  refine ⟨fun hc => ?_, fun hc => ?_, fun hc => ?_, fun hc => ?_, fun hc => ?_,
          fun hc => ?_, fun hc => ?_, fun hc => ?_, fun hc => ?_, fun hc => ?_,
          fun hc => ?_, fun hc => ?_, fun hc => ?_⟩
  · unfold enkf_node_fread
    rw [if_neg hskip, if_pos hc]
  · unfold enkf_node_fwrite
    rw [if_neg (by simp [hmem]), if_pos hc]
  · unfold enkf_node_serialize
    rw [if_pos hc]
  · unfold enkf_node_deserialize
    rw [if_pos hc]
  · unfold enkf_node_ecl_load
    rw [if_pos hc]
  · unfold enkf_node_clear
    rw [if_pos hc]
  · unfold enkf_node_scale
    rw [if_pos hc]
  · unfold enkf_node_sqrt
    rw [if_pos hc]
  · unfold enkf_node_iadd
    rw [if_pos hc]
  · unfold enkf_node_imul
    rw [if_pos hc]
  · unfold enkf_node_iaddsqr
    rw [if_pos hc]
  · unfold enkf_node_initialize_op
    rw [if_neg (by simp [hc])]
  · unfold enkf_node_ecl_write
    rw [if_neg (by simp [hc])]

/-- C3 (amended) witness: a STATIC node has no serialize capability, and
serializing it is a contract violation. -/
theorem C3_amended_unbound_dispatch_witness :
    enkf_node_serialize staticNode = .contractViolation :=
  (C3_amended_unbound_dispatch staticNode staticNode 0 0 .forecast true
    (by decide) rfl).2.2.1 rfl

/-- C4 (code-bug evidence): on a FIELD node, whose kind does bind the copy
capability, `enkf_node_copyc` never returns a copy: it aborts
unconditionally (the source prints "not properly implemented" and calls
abort). -/
theorem C4_copyc_not_implemented :
    fieldNode.caps.copyc = true ∧ enkf_node_copyc fieldNode = .fatal :=
  ⟨rfl, rfl⟩

/-- C5 counterexample: the public constructor allocates the domain object
before returning — a freshly constructed node has `__memory_allocated`
true and a live data pointer, contradicting lazy materialization on first
mutating use. -/
theorem C5_counterexample_construction_allocates :
    enkf_node_alloc (some fieldConfig) noGarbage = .ok fieldNode [.allocCall] ∧
    fieldNode.memory_allocated = true ∧
    fieldNode.data = some { has_data := true } :=
  ⟨rfl, rfl, rfl⟩

/-- C5 (amended): `enkf_node_alloc_empty` builds the handle with cache
tuple (undefined, -1, dirty) and no payload, but the public constructor
immediately allocates the domain object, so every constructed node starts
with memory allocated; storage is re-materialized lazily only after an
explicit free. -/
theorem C5_amended_construction (config : enkf_config_node_type)
    (g : ArithCaps) :
    ((enkf_node_alloc_empty config g).state = .undefined ∧
     (enkf_node_alloc_empty config g).report_step = -1 ∧
     (enkf_node_alloc_empty config g).modified = true ∧
     (enkf_node_alloc_empty config g).data = none ∧
     (enkf_node_alloc_empty config g).memory_allocated = false) ∧
    (∀ n e, enkf_node_alloc (some config) g = .ok n e →
      n.state = .undefined ∧ n.report_step = -1 ∧ n.modified = true ∧
      n.memory_allocated = true ∧ n.data = some domain_alloc) :=
  ⟨⟨rfl, rfl, rfl, rfl, rfl⟩, fun _ _ h => alloc_ok_fields h⟩

/-- C5 (amended) witness: the constructed FIELD node carries the initial
cache tuple with its domain object already allocated. -/
theorem C5_amended_construction_witness :
    fieldNode.state = .undefined ∧ fieldNode.report_step = -1 ∧
    fieldNode.modified = true ∧ fieldNode.memory_allocated = true ∧
    fieldNode.data = some domain_alloc :=
  (C5_amended_construction fieldConfig noGarbage).2 fieldNode [.allocCall] rfl

/-- The FIELD node after a successful store write at (3, forecast). -/
def fieldGoodWrite : enkf_node_type :=
  { fieldNode with
    report_step := 3, state := .forecast, modified := false }

/-- C6: `enkf_node_fwrite` (write-to-store) aborts fatally when memory is
not allocated; when memory is allocated it performs the write through the
bound capability and installs (state, report_step, modified = false). -/
theorem C6_fwrite_contract (n : enkf_node_type) (rs : Int) (st : state_enum)
    (dw : Bool) (d : DomainObject)
    (hw : n.caps.fwrite_f = true) (hd : n.data = some d) :
    (n.memory_allocated = false → enkf_node_fwrite n rs st dw = .fatal) ∧
    (n.memory_allocated = true →
      enkf_node_fwrite n rs st dw =
        .ok (dw, { n with report_step := rs, state := st, modified := false })
          [.fwriteCall]) := by
  constructor
  · intro hm
    unfold enkf_node_fwrite
    rw [if_pos hm]
  · intro hm
    unfold enkf_node_fwrite
    rw [if_neg (by simp [hm]), if_neg (by simp [hw]), hd]

/-- C6 witness: writing the constructed FIELD node at (3, forecast)
succeeds and installs the clean cache tuple. -/
theorem C6_fwrite_contract_witness :
    enkf_node_fwrite fieldNode 3 .forecast true =
      .ok (true, fieldGoodWrite) [.fwriteCall] :=
  (C6_fwrite_contract fieldNode 3 .forecast true { has_data := true }
    rfl rfl).2 rfl

/-- The node after `enkf_node_free_data`: payload buffer released, cache
state invalidated. -/
def freed_node (n : enkf_node_type) : enkf_node_type :=
  { n with
    data := some { has_data := false }, memory_allocated := false,
    report_step := -1, state := .undefined, modified := true }

/-- The freed node after `enkf_node_ensure_memory` re-materializes the
payload buffer. -/
def remat_node (n : enkf_node_type) : enkf_node_type :=
  { freed_node n with
    data := some { has_data := true }, memory_allocated := true }

/-- C7: `enkf_node_free_data` resets the cache state to
(undefined, -1, dirty) with memory deallocated; calling it again is a
no-op with an empty effect trace (in particular no second deallocation);
a subsequent ensure-storage allocates exactly once, and a further
ensure-storage does nothing. -/
theorem C7_free_data_reentrant (n : enkf_node_type) (d : DomainObject)
    (hf : n.caps.free_data = true) (hra : n.caps.realloc_data = true)
    (hd : n.data = some d) :
    (∃ e1, enkf_node_free_data n = .ok (freed_node n) e1) ∧
    (freed_node n).state = .undefined ∧ (freed_node n).report_step = -1 ∧
    (freed_node n).modified = true ∧
    (freed_node n).memory_allocated = false ∧
    enkf_node_free_data (freed_node n) = .ok (freed_node n) [] ∧
    enkf_node_ensure_memory (freed_node n) =
      .ok (remat_node n) [.payloadAlloc] ∧
    enkf_node_ensure_memory (remat_node n) = .ok (remat_node n) [] := by
  have hfd : (domain_free_data d).1 = ({ has_data := false } : DomainObject) := by
    cases d with
    | mk b => cases b <;> simp [domain_free_data]
  refine ⟨⟨(domain_free_data d).2, ?_⟩, rfl, rfl, rfl, rfl, ?_, ?_, ?_⟩
  · unfold enkf_node_free_data
    rw [if_neg (by simp [hf]), hd]
    simp only [freed_node, hfd]
  · unfold enkf_node_free_data freed_node
    rw [if_neg (by simp [hf])]
    rfl
  · unfold enkf_node_ensure_memory freed_node remat_node
    rw [if_neg (by simp [hra])]
    rfl
  · unfold enkf_node_ensure_memory remat_node freed_node
    rw [if_neg (by simp [hra])]
    rfl

/-- C7 witness: freeing the already-freed FIELD node is a no-op with an
empty effect trace. -/
theorem C7_free_data_reentrant_witness :
    enkf_node_free_data (freed_node fieldNode) =
      .ok (freed_node fieldNode) [] :=
  (C7_free_data_reentrant fieldNode { has_data := true } rfl rfl
    rfl).2.2.2.2.2.1

/-- C8 (code-bug evidence): the FIELD kind binds no batch formatter, yet
the ensemble report on FIELD nodes dereferences the unbound capability
(the assert in the source is commented out) instead of failing as a
contract violation. -/
theorem C8_fprintf_unchecked :
    fieldNode.caps.fprintf_results = false ∧
    enkf_node_ensemble_fprintf_results [fieldNode] = .ub ∧
    enkf_node_ensemble_fprintf_results [fieldNode] ≠ .contractViolation := by
  refine ⟨rfl, rfl, ?_⟩
  decide

/-- The FIELD node after `write-to-store(-1, analyzed)`: a reachable state
breaking the phase/report-step invariant. -/
def fieldBadWrite : enkf_node_type :=
  { fieldNode with
    report_step := -1, state := .analyzed, modified := false }

/-- C9 counterexample: `enkf_node_fwrite` accepts report_step = -1 with
state = analyzed, reaching a state where the phase is not undefined while
the report step is -1. -/
theorem C9_counterexample_negative_write :
    enkf_node_alloc (some fieldConfig) noGarbage = .ok fieldNode [.allocCall] ∧
    runOps fieldNode [Op.fwrite (-1) .analyzed true] =
      .ok fieldBadWrite [.fwriteCall] ∧
    ¬ (fieldBadWrite.state = .undefined ↔ fieldBadWrite.report_step = -1) := by
  refine ⟨rfl, rfl, ?_⟩
  intro hiff
  have hc := hiff.2 rfl
  cases hc

/-- C9 (amended): along every run of public operations whose load/write
arguments use a report step ≥ 0 and a snapshot tag other than undefined,
every reachable state of a constructed node satisfies
phase = undefined ⇔ report_step = -1. -/
theorem C9_amended_invariant (cfg : enkf_config_node_type) (g : ArithCaps)
    (n0 n : enkf_node_type) (e0 e : List Eff) (ops : List Op)
    (h0 : enkf_node_alloc (some cfg) g = .ok n0 e0)
    (hops : ∀ op ∈ ops, goodOp op = true)
    (h : runOps n0 ops = .ok n e) :
    n.state = .undefined ↔ n.report_step = -1 := by
  obtain ⟨hs, hr, -, -, -⟩ := alloc_ok_fields h0
  have h9 : inv9 n0 := by
    unfold inv9
    rw [hs, hr]
    simp
  exact runOps_preserves inv9
    (fun m m1 op e1 ho hrun hm => inv9_step (hops op ho) hrun hm) h h9

/-- C9 (amended) witness: after constructing a FIELD node and writing it
at (3, forecast), the invariant holds. -/
theorem C9_amended_invariant_witness :
    fieldGoodWrite.state = .undefined ↔ fieldGoodWrite.report_step = -1 :=
  C9_amended_invariant fieldConfig noGarbage fieldNode fieldGoodWrite
    [.allocCall] [.fwriteCall] [Op.fwrite 3 .forecast true] rfl
    (by intro op hop; rw [List.mem_singleton] at hop; subst hop; decide) rfl

/-- C10: in every state reachable from a constructed node through the
public operations, `__modified = false` implies memory is allocated; hence
whenever the skip condition of load-from-store holds (which requires
`__modified = false`), the node's storage is present and the skip path
returns success on a live payload. -/
theorem C10_clean_implies_allocated (cfg : enkf_config_node_type)
    (g : ArithCaps) (n0 n : enkf_node_type) (e0 e : List Eff) (ops : List Op)
    (h0 : enkf_node_alloc (some cfg) g = .ok n0 e0)
    (h : runOps n0 ops = .ok n e) :
    (n.modified = false → n.memory_allocated = true) ∧
    (∀ rs st, rs = n.report_step ∧ st = n.state ∧ n.modified = false →
      enkf_node_fread n rs st = .ok n [] ∧ n.memory_allocated = true) := by
  obtain ⟨-, -, -, hma, -⟩ := alloc_ok_fields h0
  have h10 : inv10 n0 := fun _ => hma
  have hconc : inv10 n := runOps_preserves inv10
    (fun m m1 op e1 ho hrun hm2 => inv10_step hrun hm2) h h10
  refine ⟨hconc, fun rs st hskip => ⟨?_, hconc hskip.2.2⟩⟩
  unfold enkf_node_fread
  rw [if_pos hskip]

/-- C10 witness: after constructing a FIELD node and writing it at
(5, analyzed), the matching load skips with success and the memory is
allocated. -/
theorem C10_clean_implies_allocated_witness :
    enkf_node_fread fieldLoaded 5 .analyzed = .ok fieldLoaded [] ∧
    fieldLoaded.memory_allocated = true :=
  (C10_clean_implies_allocated fieldConfig noGarbage fieldNode fieldLoaded
    [.allocCall] [.fwriteCall] [Op.fwrite 5 .analyzed true] rfl rfl).2
    5 .analyzed (by decide)
